import Mathlib

/-!
# Verification of the RAGAS evaluation scripts

A shallow embedding of `ragas_evaluation.py` and `evaluation/test_azure_config.py`
from the `m365_agents_sdk` sample, together with proofs of the behavioural
properties stated in the specification.

Modelling conventions:
* a pandas `DataFrame` is a list of named columns of string cells
  (`DataFrame`); column access `df['name']` is `DataFrame.getCol`, which
  raises `KeyError` (here: `Except.error`) when the column is absent;
* the process environment is a total map `String → Option String`
  (`EnvMap`); `os.getenv` is application, `os.environ.pop` is `envPop`;
* external library calls (`ragas.evaluate`, the Azure client constructors)
  are oracle parameters returning `Except String α`, `Except.error`
  standing for a raised Python exception;
* CSV writing/reading (`DataFrame.to_csv` / `pd.read_csv`) is modelled by
  an explicit RFC-4180-style codec with pandas' default minimal quoting
  and blank-line skipping.
-/

namespace RagasEval

/-! ## Environment model -/

/-- The process environment: `os.getenv v` is `env v`. -/
def EnvMap : Type := String → Option String

/-- Python truthiness of an `os.getenv` result: `None` and the empty
string are falsy (the scripts test `if not os.getenv(var)` / `if value:`). -/
def envFalsy : Option String → Bool
  | none => true
  | some s => s = ""

/-- Two-argument `os.getenv(var, default)`: the default applies only when
the variable is unset (an empty string is returned as is). -/
def getenvD (env : EnvMap) (v dflt : String) : String :=
  (env v).getD dflt

/-- One `os.environ.pop(k, None)`: afterwards `k` is unset, all other
variables keep their values. -/
def envPop (env : EnvMap) (k : String) : EnvMap :=
  fun v => if v = k then none else env v

/-- Sequence of `os.environ.pop` calls, one per key, in order. -/
def popAll (env : EnvMap) (ks : List String) : EnvMap :=
  ks.foldl envPop env

theorem popAll_apply (ks : List String) (env : EnvMap) (v : String) :
    popAll env ks v = if v ∈ ks then none else env v := by
  induction ks generalizing env with
  | nil => simp [popAll]
  | cons k ks ih =>
      by_cases hv : v = k
      · subst hv
        simp only [popAll, List.foldl_cons, List.mem_cons, true_or, if_pos]
        rw [show List.foldl envPop (envPop env v) ks = popAll (envPop env v) ks from rfl, ih]
        by_cases hmem : v ∈ ks <;> simp [hmem, envPop]
      · simp only [popAll, List.foldl_cons, List.mem_cons]
        rw [show List.foldl envPop (envPop env k) ks = popAll (envPop env k) ks from rfl, ih]
        by_cases hmem : v ∈ ks <;> simp [hmem, hv, envPop]

/-! ## Data model: DataFrame, EvaluationInput, the prepared dataset -/

/-- A loaded CSV table: named columns of string cells.  Well-formed pandas
DataFrames have all columns of equal length (`DataFrame.Wf`). -/
structure DataFrame where
  cols : List (String × List String)

/-- Row count: length of the first column (0 for a column-less frame). -/
def DataFrame.nrows (df : DataFrame) : Nat :=
  match df.cols with
  | [] => 0
  | c :: _ => c.2.length

/-- All columns have the row count: the pandas DataFrame invariant. -/
def DataFrame.Wf (df : DataFrame) : Prop :=
  ∀ c ∈ df.cols, c.2.length = df.nrows

/-- The column lookup `df['name'].tolist()`: `Except.error` models the
`KeyError` pandas raises for a missing column. -/
def DataFrame.getCol (df : DataFrame) (name : String) : Except String (List String) :=
  match df.cols.find? (fun c => c.1 = name) with
  | some c => Except.ok c.2
  | none => Except.error ("KeyError: " ++ name)

/-- Whether the frame has a column of the given name. -/
def DataFrame.hasCol (df : DataFrame) (name : String) : Bool :=
  (df.cols.find? (fun c => c.1 = name)).isSome

/-- One record of the dataset handed to RAGAS (spec: `EvaluationInput`). -/
structure EvaluationInput where
  question : String
  answer : String
  contexts : List String
  ground_truth : String
deriving DecidableEq, Repr

/-- The column-oriented dictionary built by `prepare_ragas_dataset` and
passed to `Dataset.from_dict`. -/
structure RagasDataset where
  question : List String
  answer : List String
  contexts : List (List String)
  ground_truth : List String
deriving DecidableEq, Repr

/-- Embedding of `prepare_ragas_dataset` (ragas_evaluation.py lines 36-70):
read the `question`, `answer` and `reference` columns (in that order, each
access able to raise `KeyError`), wrap each reference in a singleton
context list, and reuse the references as ground truths. -/
def prepare_ragas_dataset (df : DataFrame) : Except String RagasDataset := do
  let questions ← df.getCol "question"
  let answers ← df.getCol "answer"
  let references ← df.getCol "reference"
  let contexts := references.map (fun ref => [ref])
  let ground_truths := references
  Except.ok { question := questions, answer := answers,
              contexts := contexts, ground_truth := ground_truths }

/-- Four-way zip, the row view a HuggingFace `Dataset` gives of its
column dictionary. -/
def zip4 : List α → List β → List γ → List δ → List (α × β × γ × δ)
  | a :: as_, b :: bs, c :: cs, d :: ds => (a, b, c, d) :: zip4 as_ bs cs ds
  | _, _, _, _ => []

/-- The rows of the prepared dataset, as `EvaluationInput` records. -/
def RagasDataset.records (ds : RagasDataset) : List EvaluationInput :=
  (zip4 ds.question ds.answer ds.contexts ds.ground_truth).map
    (fun r => { question := r.1, answer := r.2.1,
                contexts := r.2.2.1, ground_truth := r.2.2.2 })

theorem zip4_get? (la : List α) (lb : List β) (lc : List γ) (ld : List δ) (i : Nat) :
    (zip4 la lb lc ld)[i]? =
      la[i]?.bind (fun a => lb[i]?.bind (fun b =>
        lc[i]?.bind (fun c => ld[i]?.map (fun d => (a, b, c, d))))) := by
  induction la generalizing lb lc ld i with
  | nil => cases lb <;> cases lc <;> cases ld <;> simp [zip4]
  | cons a as_ ih =>
      cases lb with
      | nil => simp [zip4]
      | cons b bs =>
          cases lc with
          | nil => simp [zip4]
          | cons c cs =>
              cases ld with
              | nil => simp [zip4]
              | cons d ds =>
                  cases i with
                  | zero => simp [zip4]
                  | succ j => simpa [zip4] using ih bs cs ds j

theorem zip4_length_of_eq (la : List α) (lb : List β) (lc : List γ) (ld : List δ)
    (hb : lb.length = la.length) (hc : lc.length = la.length)
    (hd : ld.length = la.length) :
    (zip4 la lb lc ld).length = la.length := by
  induction la generalizing lb lc ld with
  | nil =>
      cases lb <;> cases lc <;> cases ld <;> simp_all [zip4]
  | cons a as_ ih =>
      cases lb with
      | nil => simp at hb
      | cons b bs =>
          cases lc with
          | nil => simp at hc
          | cons c cs =>
              cases ld with
              | nil => simp at hd
              | cons d ds =>
                  simp only [zip4, List.length_cons] at *
                  exact Nat.succ_inj.mpr (ih bs cs ds (by omega) (by omega) (by omega))

theorem getCol_ok_of_hasCol (df : DataFrame) (name : String)
    (h : df.hasCol name = true) : ∃ col, df.getCol name = Except.ok col := by
  unfold DataFrame.hasCol at h
  unfold DataFrame.getCol
  cases hfind : df.cols.find? (fun c => c.1 = name) with
  | none => rw [hfind] at h; simp at h
  | some c => exact ⟨c.2, rfl⟩

theorem getCol_length (df : DataFrame) (name : String) (col : List String)
    (hwf : df.Wf) (h : df.getCol name = Except.ok col) :
    col.length = df.nrows := by
  unfold DataFrame.getCol at h
  cases hfind : df.cols.find? (fun c => c.1 = name) with
  | none => rw [hfind] at h; exact absurd h (by simp)
  | some c =>
      rw [hfind] at h
      have hc : c ∈ df.cols := List.mem_of_find?_eq_some hfind
      have hcol : c.2 = col := by injection h
      rw [← hcol]; exact hwf c hc

theorem getCol_error_of_not_hasCol (df : DataFrame) (name : String)
    (h : df.hasCol name = false) :
    df.getCol name = Except.error ("KeyError: " ++ name) := by
  unfold DataFrame.hasCol at h
  unfold DataFrame.getCol
  cases hfind : df.cols.find? (fun c => c.1 = name) with
  | none => rfl
  | some c => rw [hfind] at h; simp at h

/-- C1: on a table with the four required columns, `prepare_ragas_dataset`
succeeds and yields one `EvaluationInput` per input record, in order: the
i-th record pairs the i-th question with the i-th answer, its `contexts`
is the singleton `[reference_i]` and its `ground_truth` is `reference_i`. -/
theorem prepare_ragas_dataset_one_to_one (df : DataFrame) (hwf : df.Wf)
    (hq : df.hasCol "question" = true) (ha : df.hasCol "answer" = true)
    (hr : df.hasCol "reference" = true) (_hcat : df.hasCol "category" = true) :
    ∃ ds, prepare_ragas_dataset df = Except.ok ds ∧
      ds.records.length = df.nrows ∧
      ∀ qs ans refs,
        df.getCol "question" = Except.ok qs →
        df.getCol "answer" = Except.ok ans →
        df.getCol "reference" = Except.ok refs →
        ∀ (i : Nat) (q a r : String),
          qs[i]? = some q → ans[i]? = some a → refs[i]? = some r →
          ds.records[i]? = some
            ({ question := q, answer := a, contexts := [r], ground_truth := r } :
              EvaluationInput) := by
  obtain ⟨qs, hqs⟩ := getCol_ok_of_hasCol df "question" hq
  obtain ⟨ans, hans⟩ := getCol_ok_of_hasCol df "answer" ha
  obtain ⟨refs, hrefs⟩ := getCol_ok_of_hasCol df "reference" hr
  refine ⟨{ question := qs, answer := ans,
            contexts := refs.map (fun r => [r]), ground_truth := refs }, ?_, ?_, ?_⟩
  · simp only [prepare_ragas_dataset, hqs, hans, hrefs]; rfl
  · have hlq := getCol_length df "question" qs hwf hqs
    have hla := getCol_length df "answer" ans hwf hans
    have hlr := getCol_length df "reference" refs hwf hrefs
    unfold RagasDataset.records
    rw [List.length_map, zip4_length_of_eq] <;> simp [hlq, hla, hlr]
  · intro qs' ans' refs' hqs' hans' hrefs' i q a r hgq hga hgr
    rw [hqs] at hqs'; rw [hans] at hans'; rw [hrefs] at hrefs'
    injection hqs' with hqs'; injection hans' with hans'; injection hrefs' with hrefs'
    subst hqs'; subst hans'; subst hrefs'
    unfold RagasDataset.records
    dsimp only
    rw [List.getElem?_map, zip4_get?]
    simp [hgq, hga, hgr]

/-- The two-row example table from the specification. -/
def sampleDF : DataFrame :=
  ⟨[("question", ["What is 2+2?", "Capital of France?"]),
    ("answer", ["4", "Paris"]),
    ("reference", ["4", "Paris"]),
    ("category", ["math", "geography"])]⟩

/-- Witness for C1: the specification's two-row example, checked record
by record. -/
theorem prepare_ragas_dataset_one_to_one_witness :
    ∃ ds, prepare_ragas_dataset sampleDF = Except.ok ds ∧
      ds.records.length = sampleDF.nrows ∧
      ds.records[0]? = some
        ({ question := "What is 2+2?", answer := "4",
           contexts := ["4"], ground_truth := "4" } : EvaluationInput) ∧
      ds.records[1]? = some
        ({ question := "Capital of France?", answer := "Paris",
           contexts := ["Paris"], ground_truth := "Paris" } : EvaluationInput) := by
  obtain ⟨ds, h1, h2, h3⟩ :=
    prepare_ragas_dataset_one_to_one sampleDF
      (by intro c hc; fin_cases hc <;> rfl) rfl rfl rfl rfl
  exact ⟨ds, h1, h2,
    h3 _ _ _ rfl rfl rfl 0 _ _ _ rfl rfl rfl,
    h3 _ _ _ rfl rfl rfl 1 _ _ _ rfl rfl rfl⟩

/-- C4: a table missing any of the `question`, `answer` or `reference`
columns makes `prepare_ragas_dataset` fail with a `KeyError`-style lookup
error instead of returning records. -/
theorem prepare_ragas_dataset_missing_col (df : DataFrame)
    (h : df.hasCol "question" = false ∨ df.hasCol "answer" = false ∨
         df.hasCol "reference" = false) :
    ∃ e, prepare_ragas_dataset df = Except.error e := by
  by_cases hq : df.hasCol "question" = true
  · by_cases ha : df.hasCol "answer" = true
    · by_cases hr : df.hasCol "reference" = true
      · rcases h with h | h | h
        · rw [hq] at h; exact absurd h (by simp)
        · rw [ha] at h; exact absurd h (by simp)
        · rw [hr] at h; exact absurd h (by simp)
      · obtain ⟨qs, hqs⟩ := getCol_ok_of_hasCol df "question" hq
        obtain ⟨ans, hans⟩ := getCol_ok_of_hasCol df "answer" ha
        have hre := getCol_error_of_not_hasCol df "reference" (by simpa using hr)
        exact ⟨"KeyError: reference",
          by simp only [prepare_ragas_dataset, hqs, hans, hre]; rfl⟩
    · obtain ⟨qs, hqs⟩ := getCol_ok_of_hasCol df "question" hq
      have hae := getCol_error_of_not_hasCol df "answer" (by simpa using ha)
      exact ⟨"KeyError: answer",
        by simp only [prepare_ragas_dataset, hqs, hae]; rfl⟩
  · have hqe := getCol_error_of_not_hasCol df "question" (by simpa using hq)
    exact ⟨"KeyError: question",
      by simp only [prepare_ragas_dataset, hqe]; rfl⟩

/-- Witness for C4: a one-column table lacking `answer` and `reference`. -/
theorem prepare_ragas_dataset_missing_col_witness :
    ∃ e, prepare_ragas_dataset ⟨[("question", ["q1"])]⟩ = Except.error e :=
  prepare_ragas_dataset_missing_col ⟨[("question", ["q1"])]⟩ (by right; left; rfl)

/-- C5: a table with the required columns and zero data rows is prepared
into an empty record collection, with no error raised. -/
theorem prepare_ragas_dataset_empty (df : DataFrame) (hwf : df.Wf)
    (hq : df.hasCol "question" = true) (ha : df.hasCol "answer" = true)
    (hr : df.hasCol "reference" = true) (_hcat : df.hasCol "category" = true)
    (h0 : df.nrows = 0) :
    ∃ ds, prepare_ragas_dataset df = Except.ok ds ∧ ds.records = [] := by
  obtain ⟨qs, hqs⟩ := getCol_ok_of_hasCol df "question" hq
  obtain ⟨ans, hans⟩ := getCol_ok_of_hasCol df "answer" ha
  obtain ⟨refs, hrefs⟩ := getCol_ok_of_hasCol df "reference" hr
  have hlq := getCol_length df "question" qs hwf hqs
  have hlr := getCol_length df "reference" refs hwf hrefs
  rw [h0, List.length_eq_zero] at hlq hlr
  subst hlq; subst hlr
  refine ⟨{ question := [], answer := ans, contexts := [], ground_truth := [] }, ?_, ?_⟩
  · simp only [prepare_ragas_dataset, hqs, hans, hrefs]; rfl
  · cases ans <;> rfl

/-- Witness for C5: the empty-rowed four-column table. -/
theorem prepare_ragas_dataset_empty_witness :
    ∃ ds, prepare_ragas_dataset
        ⟨[("question", []), ("answer", []), ("reference", []), ("category", [])]⟩ =
        Except.ok ds ∧ ds.records = [] :=
  prepare_ragas_dataset_empty
    ⟨[("question", []), ("answer", []), ("reference", []), ("category", [])]⟩
    (by intro c hc; fin_cases hc <;> rfl)
    rfl rfl rfl rfl rfl

/-! ## Evaluator: `evaluate_with_ragas` -/

/-- The six RAGAS metrics passed to `evaluate` (lines 86-93). -/
def ragas_metric_names : List String :=
  ["answer_relevancy", "answer_correctness", "answer_similarity",
   "context_recall", "context_precision", "faithfulness"]

/-- The four variables popped from `os.environ` before the fallback
attempt (lines 127-130). -/
def fallback_env_keys : List String :=
  ["OPENAI_API_TYPE", "OPENAI_API_BASE",
   "OPENAI_DEPLOYMENT_NAME", "OPENAI_EMBEDDING_DEPLOYMENT"]

/-- Outcome of one run of `evaluate_with_ragas`: the returned value
(`none` for Python `None`), the final process environment, the sequence of
`ragas.evaluate` calls made (`true` = with the Azure handles passed), and
the console messages printed. -/
structure EvalRun (R : Type) where
  result : Option R
  env : EnvMap
  calls : List Bool
  logs : List String

/-- Embedding of `evaluate_with_ragas` (lines 72-139).  The two handle
arguments are the truthiness of `azure_llm` / `azure_embeddings`; the
external `ragas.evaluate` is the oracle `evalCall`, receiving whether the
handles are passed and the current environment, and returning the result
or a raised exception. -/
def evaluate_with_ragas {R : Type} (azure_llm azure_embeddings : Bool)
    (env : EnvMap) (evalCall : Bool → EnvMap → Except String R) : EvalRun R :=
  let withHandles := azure_llm && azure_embeddings
  match evalCall withHandles env with
  | Except.ok r =>
      { result := some r, env := env, calls := [withHandles],
        logs := ["Starting RAGAS evaluation...",
                 "RAGAS evaluation completed successfully!"] }
  | Except.error e =>
      if azure_llm && azure_embeddings then
        let env2 := popAll env fallback_env_keys
        match evalCall false env2 with
        | Except.ok r =>
            { result := some r, env := env2, calls := [withHandles, false],
              logs := ["Starting RAGAS evaluation...",
                       "Error during evaluation: " ++ e,
                       "Attempting fallback to standard OpenAI...",
                       "RAGAS evaluation completed with fallback OpenAI!"] }
        | Except.error e2 =>
            { result := none, env := env2, calls := [withHandles, false],
              logs := ["Starting RAGAS evaluation...",
                       "Error during evaluation: " ++ e,
                       "Attempting fallback to standard OpenAI...",
                       "Fallback evaluation also failed: " ++ e2] }
      else
        { result := none, env := env, calls := [withHandles],
          logs := ["Starting RAGAS evaluation...",
                   "Error during evaluation: " ++ e] }

/-- C2: when the external evaluate call raises, then with both handles
supplied there is exactly one further attempt, made without the handles,
whose `Except.toOption` is the returned value (its result on success,
`None` on a second raise); with the handles not both supplied the function
returns `None` after a single attempt, reporting the error and raising
nothing. -/
theorem evaluate_with_ragas_failure {R : Type} (llm emb : Bool) (env : EnvMap)
    (evalCall : Bool → EnvMap → Except String R) (e : String)
    (h : evalCall (llm && emb) env = Except.error e) :
    (llm = true ∧ emb = true →
      (evaluate_with_ragas llm emb env evalCall).calls = [true, false] ∧
      (evaluate_with_ragas llm emb env evalCall).result =
        (evalCall false (popAll env fallback_env_keys)).toOption) ∧
    (¬(llm = true ∧ emb = true) →
      (evaluate_with_ragas llm emb env evalCall).calls = [llm && emb] ∧
      (evaluate_with_ragas llm emb env evalCall).result = none ∧
      (evaluate_with_ragas llm emb env evalCall).logs =
        ["Starting RAGAS evaluation...", "Error during evaluation: " ++ e]) := by
  constructor
  · rintro ⟨hl, he⟩
    subst hl; subst he
    simp only [Bool.and_self] at h
    simp only [evaluate_with_ragas, h, Bool.and_self, if_true]
    cases h2 : evalCall false (popAll env fallback_env_keys) <;>
      simp [h2, Except.toOption]
  · intro hne
    have hfalse : (llm && emb) = false := by
      cases llm <;> cases emb <;> simp_all
    rw [hfalse] at h
    simp only [evaluate_with_ragas, hfalse, h]
    simp

/-- Witness for C2: a concrete always-raising oracle, once with both
handles (two attempts, `None`) and once with only one handle (a single
attempt, `None`). -/
theorem evaluate_with_ragas_failure_witness :
    ((evaluate_with_ragas true true (fun _ => none)
        (fun _ _ => (Except.error "boom" : Except String Nat))).calls = [true, false] ∧
     (evaluate_with_ragas true true (fun _ => none)
        (fun _ _ => (Except.error "boom" : Except String Nat))).result = none) ∧
    ((evaluate_with_ragas false true (fun _ => none)
        (fun _ _ => (Except.error "boom" : Except String Nat))).calls = [false] ∧
     (evaluate_with_ragas false true (fun _ => none)
        (fun _ _ => (Except.error "boom" : Except String Nat))).result = none) := by
  constructor
  · obtain ⟨h1, h2⟩ :=
      (evaluate_with_ragas_failure true true (fun _ => none)
        (fun _ _ => (Except.error "boom" : Except String Nat)) "boom" rfl).1
        ⟨rfl, rfl⟩
    exact ⟨h1, h2⟩
  · obtain ⟨h1, h2, _⟩ :=
      (evaluate_with_ragas_failure false true (fun _ => none)
        (fun _ _ => (Except.error "boom" : Except String Nat)) "boom" rfl).2
        (by simp)
    exact ⟨h1, h2⟩

/-- C10: on the fallback path (both handles supplied, first call raised)
the process environment loses exactly the four `OPENAI_*` override
variables and nothing else: every key outside `fallback_env_keys`,
in particular `OPENAI_API_KEY`, keeps its previous value. -/
theorem evaluate_with_ragas_env_frame {R : Type} (env : EnvMap)
    (evalCall : Bool → EnvMap → Except String R) (e : String)
    (h : evalCall true env = Except.error e) :
    (∀ k ∈ fallback_env_keys,
      (evaluate_with_ragas true true env evalCall).env k = none) ∧
    (∀ k, k ∉ fallback_env_keys →
      (evaluate_with_ragas true true env evalCall).env k = env k) ∧
    (evaluate_with_ragas true true env evalCall).env "OPENAI_API_KEY" =
      env "OPENAI_API_KEY" ∧
    (evaluate_with_ragas true true env evalCall).env "AZURE_OPENAI_API_KEY" =
      env "AZURE_OPENAI_API_KEY" := by
  have henv : (evaluate_with_ragas true true env evalCall).env =
      popAll env fallback_env_keys := by
    simp only [evaluate_with_ragas, Bool.and_self, h, if_true]
    cases h2 : evalCall false (popAll env fallback_env_keys) <;> simp [h2]
  refine ⟨?_, ?_, ?_, ?_⟩
  · intro k hk; rw [henv, popAll_apply]; simp [hk]
  · intro k hk; rw [henv, popAll_apply]; simp [hk]
  · rw [henv, popAll_apply]; simp [fallback_env_keys]
  · rw [henv, popAll_apply]; simp [fallback_env_keys]

/-- Witness for C10: a concrete environment holding one of the popped
variables and an unrelated key. -/
theorem evaluate_with_ragas_env_frame_witness :
    (evaluate_with_ragas true true
        (fun v => if v = "OPENAI_API_TYPE" then some "azure"
                  else if v = "OPENAI_API_KEY" then some "sk-test" else none)
        (fun _ _ => (Except.error "boom" : Except String Nat))).env
      "OPENAI_API_TYPE" = none ∧
    (evaluate_with_ragas true true
        (fun v => if v = "OPENAI_API_TYPE" then some "azure"
                  else if v = "OPENAI_API_KEY" then some "sk-test" else none)
        (fun _ _ => (Except.error "boom" : Except String Nat))).env
      "OPENAI_API_KEY" = some "sk-test" := by
  obtain ⟨h1, _, h3, _⟩ :=
    evaluate_with_ragas_env_frame
      (fun v => if v = "OPENAI_API_TYPE" then some "azure"
                else if v = "OPENAI_API_KEY" then some "sk-test" else none)
      (fun _ _ => (Except.error "boom" : Except String Nat)) "boom" rfl
  refine ⟨h1 "OPENAI_API_TYPE" (by simp [fallback_env_keys]), ?_⟩
  simpa using h3

/-! ## Configuration validator: `configure_azure_openai` -/

/-- The `azure_config` dictionary (lines 200-206): the two required fields
as read (possibly unset), the three optional ones with their defaults. -/
structure AzureConfig where
  api_key : Option String
  api_version : String
  azure_endpoint : Option String
  model_deployment : String
  embedding_deployment : String
deriving DecidableEq, Repr

/-- The required environment variables (line 209). -/
def required_vars : List String := ["AZURE_OPENAI_API_KEY", "AZURE_OPENAI_ENDPOINT"]

/-- Outcome of `configure_azure_openai`: the missing variables reported
(empty when none were), whether client construction was attempted (the
only step that can touch the network), and the returned handles
(`none` for Python `None`). -/
structure ConfigureOutcome (H : Type) where
  reported_missing : List String
  constructed : Bool
  result : Option H
deriving DecidableEq, Repr

/-- Embedding of `configure_azure_openai` (lines 196-250).  The Azure
client constructors are the oracle `mkClients`; they are only invoked
when no required variable is missing. -/
def configure_azure_openai {H : Type} (env : EnvMap)
    (mkClients : AzureConfig → Except String H) : ConfigureOutcome H :=
  let azure_config : AzureConfig :=
    { api_key := env "AZURE_OPENAI_API_KEY",
      api_version := getenvD env "AZURE_OPENAI_API_VERSION" "2024-02-01",
      azure_endpoint := env "AZURE_OPENAI_ENDPOINT",
      model_deployment := getenvD env "AZURE_OPENAI_MODEL_DEPLOYMENT" "gpt-4",
      embedding_deployment :=
        getenvD env "AZURE_OPENAI_EMBEDDING_DEPLOYMENT" "text-embedding-ada-002" }
  let missing_vars := required_vars.filter (fun v => envFalsy (env v))
  if missing_vars.isEmpty then
    match mkClients azure_config with
    | Except.ok h => { reported_missing := [], constructed := true, result := some h }
    | Except.error _ => { reported_missing := [], constructed := true, result := none }
  else
    { reported_missing := missing_vars, constructed := false, result := none }

/-- C3: with both required environment variables unset the validator
reports exactly the missing required variables, never attempts client
construction (so no network call is possible), and returns the failure
value `None`. -/
theorem configure_azure_openai_all_missing {H : Type} (env : EnvMap)
    (mkClients : AzureConfig → Except String H)
    (h1 : env "AZURE_OPENAI_API_KEY" = none)
    (h2 : env "AZURE_OPENAI_ENDPOINT" = none) :
    configure_azure_openai env mkClients =
      { reported_missing := required_vars, constructed := false, result := none } := by
  simp [configure_azure_openai, required_vars, h1, h2, envFalsy, List.filter]

/-- Witness for C3: the empty environment. -/
theorem configure_azure_openai_all_missing_witness :
    configure_azure_openai (fun _ => none)
        (fun _ => (Except.error "unused" : Except String Unit)) =
      { reported_missing := required_vars, constructed := false, result := none } :=
  configure_azure_openai_all_missing (fun _ => none)
    (fun _ => (Except.error "unused" : Except String Unit)) rfl rfl

/-! ## CLI entry point: `main` -/

/-- The default input filename (line 256). -/
def default_csv_path : String := "sample_questions_with_answers.csv"

/-- The fixed output filename (line 257). -/
def output_csv_path : String := "ragas_evaluation_results.csv"

/-- Embedding of the argument handling in `main` (line 256):
`sys.argv[1] if len(sys.argv) > 1 else "sample_questions_with_answers.csv"`,
where `argv` includes the program name at position 0. -/
def main_csv_path (argv : List String) : String :=
  if argv.length > 1 then argv.getD 1 "" else default_csv_path

/-- C6: `main` uses at most one positional argument: with arguments
present the first one is the input path (any further ones are ignored),
with none the default filename is used; the output path is the fixed
literal in every run. -/
theorem main_paths_spec (prog : String) (args : List String) :
    main_csv_path (prog :: args) = args.headD default_csv_path ∧
    output_csv_path = "ragas_evaluation_results.csv" := by
  refine ⟨?_, rfl⟩
  cases args with
  | nil => rfl
  | cons a t => simp [main_csv_path, List.getD]

/-! ## Result display: `display_results` -/

/-- Abstraction of the RAGAS result object exactly as `display_results`
probes it: its dictionary keys, whether it has a `to_pandas` attribute,
and the columns of `to_pandas()`. -/
structure RagasResult where
  keys : List String
  has_to_pandas : Bool
  columns : List String

/-- The `metric_names` display dictionary (lines 156-163), in insertion
order. -/
def display_metric_names : List (String × String) :=
  [("answer_relevancy", "Answer Relevancy"),
   ("answer_correctness", "Answer Correctness"),
   ("answer_similarity", "Answer Similarity"),
   ("context_recall", "Context Recall"),
   ("context_precision", "Context Precision"),
   ("faithfulness", "Faithfulness")]

/-- The Python `NameError` raised at line 172: the name
`category_indices` read there is bound nowhere in the program. -/
def category_indices_error : String :=
  "NameError: name category_indices is not defined"

/-- The loop of `display_results` (lines 166-174).  For each metric in
order: when the metric is a key of the result, the result converts to
tabular form, and the metric is one of its columns, execution reaches
`result_df.iloc[category_indices]` and raises `NameError`
(`Except.error`); otherwise the iteration continues. -/
def display_loop (res : RagasResult) : List (String × String) → Except String Unit
  | [] => Except.ok ()
  | (key, _) :: rest =>
    if key ∈ res.keys then
      if res.has_to_pandas then
        if key ∈ res.columns then Except.error category_indices_error
        else display_loop res rest
      else display_loop res rest
    else display_loop res rest

/-- Embedding of `display_results` (lines 141-174): `None` prints a notice
and returns, any other result runs the metric loop. -/
def display_results (result : Option RagasResult) : Except String Unit :=
  match result with
  | none => Except.ok ()
  | some res => display_loop res display_metric_names

theorem display_loop_error (res : RagasResult) (hp : res.has_to_pandas = true) :
    ∀ l : List (String × String),
      (∃ p ∈ l, p.1 ∈ res.keys ∧ p.1 ∈ res.columns) →
      display_loop res l = Except.error category_indices_error := by
  intro l
  induction l with
  | nil => rintro ⟨p, hpl, _⟩; simp at hpl
  | cons q rest ih =>
      rintro ⟨p, hpl, hk, hc⟩
      obtain ⟨key, d⟩ := q
      by_cases hqk : key ∈ res.keys
      · by_cases hqc : key ∈ res.columns
        · simp [display_loop, hqk, hp, hqc]
        · have hpr : p ∈ rest := by
            rcases List.mem_cons.1 hpl with h | h
            · rw [h] at hc; exact absurd hc hqc
            · exact h
          simp only [display_loop, hqk, hp, hqc, if_true, if_false]
          exact ih ⟨p, hpr, hk, hc⟩
      · have hpr : p ∈ rest := by
          rcases List.mem_cons.1 hpl with h | h
          · rw [h] at hk; exact absurd hk hqk
          · exact h
        simp only [display_loop, hqk, if_false]
        exact ih ⟨p, hpr, hk, hc⟩

/-- C8: any result holding one of the six known metric keys, convertible
to tabular form and carrying that metric as a column, drives
`display_results` into the undefined-name error for `category_indices`
instead of printing the per-metric average. -/
theorem display_results_name_error (res : RagasResult)
    (hp : res.has_to_pandas = true)
    (h : ∃ p ∈ display_metric_names, p.1 ∈ res.keys ∧ p.1 ∈ res.columns) :
    display_results (some res) = Except.error category_indices_error :=
  display_loop_error res hp display_metric_names h

/-- Witness for C8: a result carrying the `faithfulness` metric. -/
theorem display_results_name_error_witness :
    display_results (some ⟨["faithfulness"], true, ["faithfulness"]⟩) =
      Except.error category_indices_error :=
  display_results_name_error ⟨["faithfulness"], true, ["faithfulness"]⟩ rfl
    ⟨("faithfulness", "Faithfulness"), by simp [display_metric_names]⟩

/-! ## Credential masking in `test_azure_config.py` -/

/-- The masking expression of `test_environment_variables` (line 88):
`value[:8] + "..." + value[-4:] if len(value) > 12 else "***"`. -/
def mask_api_key (value : String) : String :=
  if 12 < value.length then
    (value.toList.take 8).asString ++ "..." ++
      (value.toList.drop (value.length - 4)).asString
  else "***"

/-- Python's substring test `needle in hay` on character lists. -/
def containsSublist (needle : List Char) : List Char → Bool
  | [] => needle.isEmpty
  | c :: rest => needle.isPrefixOf (c :: rest) || containsSublist needle rest

/-- The displayed value for one variable (lines 87-91): variables whose
name contains `API_KEY` are masked, all others are shown in full. -/
def displayed_env_value (var value : String) : String :=
  if containsSublist "API_KEY".toList var.toList then mask_api_key value else value

/-- The `azure_vars` dictionary of `test_environment_variables`
(lines 75-81). -/
def azure_vars : List (String × String) :=
  [("AZURE_OPENAI_API_KEY", "Azure OpenAI API Key"),
   ("AZURE_OPENAI_ENDPOINT", "Azure OpenAI Endpoint"),
   ("AZURE_OPENAI_API_VERSION", "Azure OpenAI API Version"),
   ("AZURE_OPENAI_MODEL_DEPLOYMENT", "Azure OpenAI Model Deployment"),
   ("AZURE_OPENAI_EMBEDDING_DEPLOYMENT", "Azure OpenAI Embedding Deployment")]

/-- One line of the environment report (lines 83-93). -/
def env_var_line (var desc : String) (value : Option String) : String :=
  if envFalsy value then "missing " ++ desc ++ ": Not set"
  else "ok " ++ desc ++ ": " ++ displayed_env_value var (value.getD "")

/-- The report of `test_environment_variables` (lines 67-101): one line
per Azure variable, then the OpenAI fallback key line (lines 96-101),
masked the same way. -/
def test_environment_variables (env : EnvMap) : List String :=
  azure_vars.map (fun p => env_var_line p.1 p.2 (env p.1)) ++
    [if envFalsy (env "OPENAI_API_KEY") then
      "warn OpenAI API Key (fallback): Not set"
     else
      "ok OpenAI API Key (fallback): " ++
        mask_api_key ((env "OPENAI_API_KEY").getD "")]

/-- Counterexample to C9: for the key value `***` the check prints
exactly `***`, which IS the full key, so "never prints the full key" is
false as universally stated. -/
theorem displayed_env_value_counterexample :
    displayed_env_value "AZURE_OPENAI_API_KEY" "***" = "***" := by decide

/-- C9 (amended): every set API key value is displayed through the mask
(first 8 plus `...` plus last 4 beyond length 12, `***` otherwise), the
non-key variables are displayed in full, and the masked display differs
from the key itself except in the degenerate lengths 3 and 15 where a key
can coincide with its own mask. -/
theorem displayed_env_value_masks (v : String) :
    displayed_env_value "AZURE_OPENAI_API_KEY" v = mask_api_key v ∧
    (v.length ≤ 12 → mask_api_key v = "***") ∧
    (12 < v.length → (mask_api_key v).length = 15) ∧
    (v.length ≠ 3 → v.length ≠ 15 →
      displayed_env_value "AZURE_OPENAI_API_KEY" v ≠ v) ∧
    (∀ p ∈ azure_vars, containsSublist "API_KEY".toList p.1.toList = false →
      displayed_env_value p.1 v = v) := by
  have hdisp : displayed_env_value "AZURE_OPENAI_API_KEY" v = mask_api_key v := rfl
  have hlow : v.length ≤ 12 → mask_api_key v = "***" := by
    intro h
    unfold mask_api_key
    rw [if_neg (by omega)]
  have hhigh : 12 < v.length → (mask_api_key v).length = 15 := by
    intro h
    unfold mask_api_key
    rw [if_pos h]
    have hv : v.toList.length = v.length := rfl
    rw [String.length_append, String.length_append]
    have h1 : ((v.toList.take 8).asString).length = (v.toList.take 8).length := rfl
    have h2 : ((v.toList.drop (v.length - 4)).asString).length =
        (v.toList.drop (v.length - 4)).length := rfl
    rw [h1, h2, List.length_take, List.length_drop, hv]
    have : ("..." : String).length = 3 := rfl
    rw [this]
    omega
  refine ⟨hdisp, hlow, hhigh, ?_, ?_⟩
  · intro h3 h15 heq
    rw [hdisp] at heq
    by_cases h : 12 < v.length
    · have := hhigh h
      rw [heq] at this
      exact h15 this
    · have := hlow (by omega)
      rw [this] at heq
      have : v.length = 3 := by rw [← heq]; rfl
      exact h3 this
  · intro p _ hinf
    unfold displayed_env_value
    rw [hinf]
    simp

/-- Witness for C9: an 18-character key is displayed masked and the
display differs from the key; the endpoint variable is shown in full. -/
theorem displayed_env_value_masks_witness :
    displayed_env_value "AZURE_OPENAI_API_KEY" "abcdefghijklmnopqr" =
      mask_api_key "abcdefghijklmnopqr" ∧
    displayed_env_value "AZURE_OPENAI_API_KEY" "abcdefghijklmnopqr" ≠
      "abcdefghijklmnopqr" ∧
    displayed_env_value "AZURE_OPENAI_ENDPOINT" "abcdefghijklmnopqr" =
      "abcdefghijklmnopqr" := by
  obtain ⟨h1, _, _, h4, h5⟩ := displayed_env_value_masks "abcdefghijklmnopqr"
  exact ⟨h1, h4 (by decide) (by decide),
    h5 ("AZURE_OPENAI_ENDPOINT", "Azure OpenAI Endpoint")
      (by simp [azure_vars]) (by decide)⟩

/-! ## CSV codec: `DataFrame.to_csv` and `pd.read_csv`

The writer is pandas' default: minimal quoting (a field is quoted exactly
when it contains the separator, the quote character or a line break,
doubling embedded quotes), every row terminated by a newline.  The reader
splits records and fields at unquoted separators, unescapes quoted
fields, and skips blank lines (`skip_blank_lines=True`). -/

/-- Whether minimal quoting must quote the field. -/
def needsQuoting (f : List Char) : Bool :=
  f.any (fun c => c == ',' || c == '"' || c == '\n' || c == '\r')

/-- Double every embedded quote character (the CSV escape). -/
def escapeQuotes : List Char → List Char
  | [] => []
  | c :: rest =>
      if c = '"' then '"' :: '"' :: escapeQuotes rest else c :: escapeQuotes rest

/-- One encoded field. -/
def encField (f : List Char) : List Char :=
  if needsQuoting f then '"' :: (escapeQuotes f ++ ['"']) else f

/-- Join chunks with a separator chunk between consecutive elements. -/
def joinSep (sep : List Char) : List (List Char) → List Char
  | [] => []
  | [x] => x
  | x :: xs => x ++ sep ++ joinSep sep xs

/-- One encoded row: encoded fields joined by commas. -/
def encRow (r : List (List Char)) : List Char :=
  joinSep [','] (r.map encField)

/-- The written file: every row (header first), newline-terminated. -/
def encFile (rows : List (List (List Char))) : List Char :=
  (rows.map (fun r => encRow r ++ ['\n'])).flatten

/-- Push a character onto the front of the first chunk. -/
def consHead (c : Char) : List (List Char) → List (List Char)
  | [] => [[c]]
  | r :: rs => (c :: r) :: rs

/-- Split at every unquoted separator; the Boolean tracks whether the scan
is inside a quoted section (a doubled quote toggles twice, staying in). -/
def splitTop (sep : Char) : Bool → List Char → List (List Char)
  | _, [] => [[]]
  | q, c :: rest =>
      if c = '"' then consHead '"' (splitTop sep (!q) rest)
      else if c = sep ∧ q = false then [] :: splitTop sep q rest
      else consHead c (splitTop sep q rest)

/-- Collapse the doubled quotes of a quoted field body. -/
def unescapeQuotes : List Char → List Char
  | [] => []
  | [c] => [c]
  | c :: c2 :: rest =>
      if c = '"' ∧ c2 = '"' then '"' :: unescapeQuotes rest
      else c :: unescapeQuotes (c2 :: rest)

/-- Decode one field: strip the surrounding quotes and unescape when the
field is quoted, return it unchanged otherwise. -/
def decField (f : List Char) : List Char :=
  match f with
  | [] => []
  | c :: rest => if c = '"' then unescapeQuotes rest.dropLast else c :: rest

/-- Decode one record into its fields. -/
def parseRecord (rec : List Char) : List (List Char) :=
  (splitTop ',' false rec).map decField

/-- Split the raw file into records, skipping blank lines (which also
absorbs the empty chunk after the terminating newline). -/
def read_csv_records (raw : List Char) : List (List Char) :=
  (splitTop '\n' false raw).filter (fun r => !r.isEmpty)

/-- `pd.read_csv` on raw file contents: `none` models the
`EmptyDataError` raised on a file with no records, otherwise the first
record is the header and the rest are the data rows. -/
def read_csv (raw : List Char) : Option (List (List Char) × List (List (List Char))) :=
  match read_csv_records raw with
  | [] => none
  | h :: rs => some (parseRecord h, rs.map parseRecord)

/-- A row-oriented result table, as `result.to_pandas()` hands it to
`save_detailed_results`. -/
structure ResultFrame where
  header : List String
  rows : List (List String)
deriving DecidableEq, Repr

/-- `DataFrame.to_csv(output_path, index=False)`: the written contents. -/
def to_csv (t : ResultFrame) : String :=
  (encFile ((t.header :: t.rows).map (fun r => r.map String.toList))).asString

/-- Embedding of `save_detailed_results` (lines 176-194): `None` writes
nothing, any frame is written via `to_csv`; the value is the written file
contents. -/
def save_detailed_results (result_df : Option ResultFrame) : Option String :=
  match result_df with
  | none => none
  | some t => some (to_csv t)

/-- Embedding of `load_data` (lines 26-34) applied to the written file:
`pd.read_csv` contents, `none` when reading fails. -/
def load_data (raw : String) : Option ResultFrame :=
  match read_csv raw.toList with
  | none => none
  | some (h, rs) =>
      some { header := h.map List.asString, rows := rs.map (fun r => r.map List.asString) }

/-! ### Round-trip lemmas for the codec -/

/-- Append a chunk onto the front of the first chunk of a split result. -/
def consAll (s : List Char) : List (List Char) → List (List Char)
  | [] => [s]
  | r :: rs => (s ++ r) :: rs

theorem consHead_consAll (c : Char) (s : List Char) (res : List (List Char)) :
    consHead c (consAll s res) = consAll (c :: s) res := by
  cases res <;> rfl

theorem consHead_ne_nil (c : Char) (res : List (List Char)) :
    consHead c res ≠ [] := by
  cases res <;> simp [consHead]

theorem splitTop_ne_nil (sep : Char) (q : Bool) (l : List Char) :
    splitTop sep q l ≠ [] := by
  cases l with
  | nil => simp [splitTop]
  | cons c rest =>
      unfold splitTop
      by_cases h1 : c = '"'
      · rw [if_pos h1]; exact consHead_ne_nil _ _
      · rw [if_neg h1]
        by_cases h2 : c = sep ∧ q = false
        · rw [if_pos h2]; simp
        · rw [if_neg h2]; exact consHead_ne_nil _ _

/-- Quote-parity scan: `some` of the final parity when no unquoted
separator occurs, `none` otherwise. -/
def scanSafe (sep : Char) : Bool → List Char → Option Bool
  | q, [] => some q
  | q, c :: rest =>
      if c = '"' then scanSafe sep (!q) rest
      else if c = sep ∧ q = false then none
      else scanSafe sep q rest

theorem scanSafe_cons (sep c : Char) (q : Bool) (l : List Char) :
    scanSafe sep q (c :: l) =
      if c = '"' then scanSafe sep (!q) l
      else if c = sep ∧ q = false then none
      else scanSafe sep q l := rfl

theorem splitTop_cons (sep c : Char) (q : Bool) (l : List Char) :
    splitTop sep q (c :: l) =
      if c = '"' then consHead '"' (splitTop sep (!q) l)
      else if c = sep ∧ q = false then [] :: splitTop sep q l
      else consHead c (splitTop sep q l) := rfl

theorem scanSafe_append (sep : Char) (a : List Char) :
    ∀ (q : Bool) (b : List Char),
      scanSafe sep q (a ++ b) = (scanSafe sep q a).bind (fun q2 => scanSafe sep q2 b) := by
  induction a with
  | nil => intro q b; rfl
  | cons c rest ih =>
      intro q b
      rw [List.cons_append, scanSafe_cons, scanSafe_cons]
      by_cases h1 : c = '"'
      · rw [if_pos h1, if_pos h1, ih]
      · rw [if_neg h1, if_neg h1]
        by_cases h2 : c = sep ∧ q = false
        · rw [if_pos h2, if_pos h2]; rfl
        · rw [if_neg h2, if_neg h2, ih]

theorem splitTop_prepend (sep : Char) (s : List Char) :
    ∀ (q : Bool) (t : List Char), scanSafe sep q s = some false →
      splitTop sep q (s ++ t) = consAll s (splitTop sep false t) := by
  induction s with
  | nil =>
      intro q t h
      simp only [scanSafe, Option.some.injEq] at h
      subst h
      rw [List.nil_append]
      cases hres : splitTop sep false t with
      | nil => exact absurd hres (splitTop_ne_nil sep false t)
      | cons r rs => simp [consAll]
  | cons c rest ih =>
      intro q t h
      rw [List.cons_append, splitTop_cons]
      rw [scanSafe_cons] at h
      by_cases h1 : c = '"'
      · subst h1
        rw [if_pos rfl] at h
        rw [if_pos rfl, ih (!q) t h, consHead_consAll]
      · rw [if_neg h1] at h ⊢
        by_cases h2 : c = sep ∧ q = false
        · rw [if_pos h2] at h; exact absurd h (by simp)
        · rw [if_neg h2] at h ⊢
          rw [ih q t h, consHead_consAll]

theorem splitTop_sep_cons (sep : Char) (hsep : sep ≠ '"') (s t : List Char)
    (h : scanSafe sep false s = some false) :
    splitTop sep false (s ++ sep :: t) = s :: splitTop sep false t := by
  rw [splitTop_prepend sep s false (sep :: t) h]
  have hstep : splitTop sep false (sep :: t) = [] :: splitTop sep false t := by
    rw [splitTop_cons, if_neg hsep, if_pos ⟨rfl, rfl⟩]
  rw [hstep]
  simp [consAll]

theorem splitTop_single (sep : Char) (s : List Char)
    (h : scanSafe sep false s = some false) :
    splitTop sep false s = [s] := by
  have hpre := splitTop_prepend sep s false [] h
  rw [List.append_nil] at hpre
  rw [hpre, show splitTop sep false [] = [[]] from rfl]
  simp [consAll]

theorem scanSafe_escapeQuotes (sep : Char) (f : List Char) :
    scanSafe sep true (escapeQuotes f) = some true := by
  induction f with
  | nil => rfl
  | cons c rest ih =>
      by_cases h : c = '"'
      · simp [escapeQuotes, h, scanSafe, ih]
      · simp [escapeQuotes, h, scanSafe, ih]

theorem scanSafe_of_no_special (sep : Char) (hsep : sep = ',' ∨ sep = '\n')
    (f : List Char) (h : needsQuoting f = false) :
    scanSafe sep false f = some false := by
  induction f with
  | nil => rfl
  | cons c rest ih =>
      simp only [needsQuoting, List.any_cons, Bool.or_eq_false_iff,
        beq_eq_false_iff_ne, ne_eq] at h
      obtain ⟨⟨⟨⟨hc1, hc2⟩, hc3⟩, hc4⟩, hrest⟩ := h
      have hcsep : ¬(c = sep ∧ (false : Bool) = false) := by
        rcases hsep with hs | hs <;> subst hs <;> simp [hc1, hc3]
      unfold scanSafe
      rw [if_neg hc2, if_neg hcsep]
      exact ih hrest

theorem scanSafe_encField (sep : Char) (hsep : sep = ',' ∨ sep = '\n')
    (f : List Char) :
    scanSafe sep false (encField f) = some false := by
  unfold encField
  by_cases hq : needsQuoting f = true
  · rw [if_pos hq]
    have hsepq : sep ≠ '"' := by rcases hsep with h | h <;> subst h <;> decide
    show scanSafe sep false ('"' :: (escapeQuotes f ++ ['"'])) = some false
    rw [scanSafe_cons, if_pos rfl]
    simp only [Bool.not_false]
    rw [scanSafe_append, scanSafe_escapeQuotes]
    rfl
  · rw [if_neg hq]
    exact scanSafe_of_no_special sep hsep f (by simpa using hq)

theorem scanSafe_encRow (r : List (List Char)) :
    scanSafe '\n' false (encRow r) = some false := by
  unfold encRow
  induction r with
  | nil => rfl
  | cons f fs ih =>
      cases fs with
      | nil => exact scanSafe_encField '\n' (Or.inr rfl) f
      | cons g gs =>
          have heq : joinSep [','] (List.map encField (f :: g :: gs)) =
              encField f ++ (',' :: joinSep [','] (List.map encField (g :: gs))) := by
            show encField f ++ [','] ++ joinSep [','] (List.map encField (g :: gs)) = _
            rw [List.append_assoc, List.singleton_append]
          rw [heq, scanSafe_append, scanSafe_encField '\n' (Or.inr rfl) f]
          show scanSafe '\n' false (',' :: joinSep [','] (List.map encField (g :: gs))) =
            some false
          unfold scanSafe
          rw [if_neg (by decide), if_neg (by simp)]
          exact ih

theorem splitTop_comma_encRow (r : List (List Char)) (hr : r ≠ []) :
    splitTop ',' false (encRow r) = r.map encField := by
  unfold encRow
  induction r with
  | nil => exact absurd rfl hr
  | cons f fs ih =>
      cases fs with
      | nil => exact splitTop_single ',' _ (scanSafe_encField ',' (Or.inl rfl) f)
      | cons g gs =>
          have heq : joinSep [','] (List.map encField (f :: g :: gs)) =
              encField f ++ (',' :: joinSep [','] (List.map encField (g :: gs))) := by
            show encField f ++ [','] ++ joinSep [','] (List.map encField (g :: gs)) = _
            rw [List.append_assoc, List.singleton_append]
          rw [heq,
            splitTop_sep_cons ',' (by decide) _ _ (scanSafe_encField ',' (Or.inl rfl) f),
            ih (by simp)]
          rfl

theorem unescapeQuotes_cons_cons (c c2 : Char) (rest : List Char) :
    unescapeQuotes (c :: c2 :: rest) =
      if c = '"' ∧ c2 = '"' then '"' :: unescapeQuotes rest
      else c :: unescapeQuotes (c2 :: rest) := rfl

theorem decField_cons (c : Char) (rest : List Char) :
    decField (c :: rest) =
      if c = '"' then unescapeQuotes rest.dropLast else c :: rest := rfl

theorem unescapeQuotes_cons_ne (c : Char) (l : List Char) (h : c ≠ '"') :
    unescapeQuotes (c :: l) = c :: unescapeQuotes l := by
  cases l with
  | nil => rfl
  | cons c2 rest =>
      rw [unescapeQuotes_cons_cons, if_neg (by simp [h])]

theorem unescapeQuotes_escapeQuotes (f : List Char) :
    unescapeQuotes (escapeQuotes f) = f := by
  induction f with
  | nil => rfl
  | cons c rest ih =>
      by_cases h : c = '"'
      · subst h
        show unescapeQuotes ('"' :: '"' :: escapeQuotes rest) = _
        rw [unescapeQuotes_cons_cons, if_pos ⟨rfl, rfl⟩, ih]
      · show unescapeQuotes ((if c = '"' then _ else c :: escapeQuotes rest)) = _
        rw [if_neg h, unescapeQuotes_cons_ne c _ h, ih]

theorem decField_encField (f : List Char) : decField (encField f) = f := by
  unfold encField
  by_cases hq : needsQuoting f = true
  · rw [if_pos hq]
    show decField ('"' :: (escapeQuotes f ++ ['"'])) = f
    rw [decField_cons, if_pos rfl, List.dropLast_concat]
    exact unescapeQuotes_escapeQuotes f
  · rw [if_neg hq]
    cases f with
    | nil => rfl
    | cons c rest =>
        have hc : c ≠ '"' := by
          intro hcq; subst hcq
          exact hq (by simp [needsQuoting])
        rw [decField_cons, if_neg hc]

theorem parseRecord_encRow (l : List (List Char)) (hl : l ≠ []) :
    parseRecord (encRow l) = l := by
  unfold parseRecord
  rw [splitTop_comma_encRow l hl, List.map_map,
    show decField ∘ encField = id from funext decField_encField, List.map_id]

theorem splitTop_newline_encFile (rows : List (List (List Char))) :
    splitTop '\n' false (encFile rows) = rows.map encRow ++ [[]] := by
  unfold encFile
  induction rows with
  | nil => rfl
  | cons r rest ih =>
      rw [List.map_cons, List.flatten_cons, List.append_assoc, List.singleton_append,
        splitTop_sep_cons '\n' (by decide) _ _ (scanSafe_encRow r), ih]
      rfl

theorem encRow_ne_nil (r : List (List Char)) (hr : 2 ≤ r.length) :
    encRow r ≠ [] := by
  match r, hr with
  | f :: g :: t, _ =>
    show joinSep [','] (encField f :: encField g :: List.map encField t) ≠ []
    show encField f ++ [','] ++ joinSep [','] (encField g :: List.map encField t) ≠ []
    simp

theorem map_id_of_mem {α : Type} (l : List α) (f : α → α) (h : ∀ x ∈ l, f x = x) :
    l.map f = l := by
  induction l with
  | nil => rfl
  | cons a rest ih =>
      rw [List.map_cons, h a (by simp), ih (fun x hx => h x (by simp [hx]))]

/-- C7: writing a non-empty result table with `save_detailed_results` and
reading the file back with the loader restores the table exactly: in
particular the column (metric) names and the row count are unchanged.
The table is well-formed: at least two columns (a RAGAS result table has
the four dataset columns plus its metric columns) and rectangular rows. -/
theorem save_detailed_results_roundtrip (t : ResultFrame)
    (hne : t.rows ≠ []) (hcols : 2 ≤ t.header.length)
    (hlen : ∀ r ∈ t.rows, r.length = t.header.length) :
    ∃ s, save_detailed_results (some t) = some s ∧ load_data s = some t := by
  obtain ⟨theader, trows⟩ := t
  simp only at hne hcols hlen
  refine ⟨to_csv ⟨theader, trows⟩, rfl, ?_⟩
  have hrecords : read_csv_records (to_csv ⟨theader, trows⟩).toList =
      List.map encRow ((theader :: trows).map (fun r => r.map String.toList)) := by
    unfold read_csv_records
    have htl : (to_csv ⟨theader, trows⟩).toList =
        encFile ((theader :: trows).map (fun r => r.map String.toList)) := by
      unfold to_csv
      rfl
    rw [htl, splitTop_newline_encFile, List.filter_append]
    have h1 : List.filter (fun r => !r.isEmpty) [([] : List Char)] = [] := rfl
    rw [h1, List.append_nil]
    apply List.filter_eq_self.mpr
    intro x hx
    obtain ⟨rl, hrl, hxeq⟩ := List.mem_map.1 hx
    obtain ⟨row, hrow, hrleq⟩ := List.mem_map.1 hrl
    have hrowlen : 2 ≤ row.length := by
      rcases List.mem_cons.1 hrow with h | h
      · rw [h]; exact hcols
      · rw [hlen row h]; exact hcols
    have : encRow rl ≠ [] := by
      apply encRow_ne_nil
      rw [← hrleq, List.length_map]
      exact hrowlen
    rw [← hxeq]
    simpa [List.isEmpty_iff] using this
  have hrowsne : ∀ row ∈ theader :: trows,
      (row.map String.toList : List (List Char)) ≠ [] := by
    intro row hrow
    have : 2 ≤ row.length := by
      rcases List.mem_cons.1 hrow with h | h
      · rw [h]; exact hcols
      · rw [hlen row h]; exact hcols
    simp only [ne_eq, List.map_eq_nil_iff]
    intro hnil
    rw [hnil] at this
    simp at this
  have hback : ∀ row ∈ theader :: trows,
      (parseRecord (encRow (row.map String.toList))).map List.asString = row := by
    intro row hrow
    rw [parseRecord_encRow _ (hrowsne row hrow), List.map_map]
    have hcomp : List.asString ∘ String.toList = id := by
      funext s
      rfl
    rw [hcomp, List.map_id]
  unfold load_data read_csv
  rw [hrecords]
  simp only [List.map_cons, List.map_map]
  simp only [Option.some.injEq, ResultFrame.mk.injEq]
  constructor
  · exact hback theader (List.mem_cons_self _ _)
  · apply map_id_of_mem
    intro r hr
    simp only [Function.comp]
    exact hback r (List.mem_cons_of_mem _ hr)

/-- A concrete one-row result table with the four dataset columns and the
six metric columns. -/
def sampleResultFrame : ResultFrame :=
  { header := ["question", "answer", "contexts", "ground_truth",
               "answer_relevancy", "answer_correctness", "answer_similarity",
               "context_recall", "context_precision", "faithfulness"],
    rows := [["q1", "a1", "[c1]", "g1", "0.9", "0.8", "0.7", "1.0", "1.0", "0.95"]] }

/-- Witness for C7: the concrete one-row result table round-trips. -/
theorem save_detailed_results_roundtrip_witness :
    ∃ s, save_detailed_results (some sampleResultFrame) = some s ∧
      load_data s = some sampleResultFrame :=
  save_detailed_results_roundtrip sampleResultFrame (by decide) (by decide)
    (by intro r hr; fin_cases hr; rfl)

end RagasEval
